import Mathlib

/-!
Verification of the MCPM backend (`mcp_backend.py`).

This file shallowly embeds the backend's core components in Lean:

* `MemoryStore` (memories / rolling context, persistence that swallows
  I/O errors),
* `FGDMCPServer._sanitize` (path sanitization),
* `LLMBackend.query` (multi-provider LLM router) and the `llm_query`
  branch of the tool dispatcher,
* the `edit_file` tool handler and `_approval_monitor_loop` body
  (propose / approve / apply pipeline).

Python strings are modelled as `String` / `List Char`; Python dicts as
association lists with overwrite-on-insert; `datetime.now()` as an
explicit `Nat` argument; the filesystem as an association list from
resolved paths (component lists) to contents; HTTP as an oracle
function passed in, with the list of dispatched requests returned so
that theorems can talk about what reached the provider.
-/

/- ------------------------------------------------------------------ -/
/- Python string primitives over character lists                      -/
/- ------------------------------------------------------------------ -/

/-- Python `sub in s` (substring test). `"" in s` is `True` in Python;
`List.isPrefixOf [] _` is `true`, so the semantics agree. -/
def containsSub : List Char → List Char → Bool
  | [], sub => sub.isEmpty
  | c :: t, sub => sub.isPrefixOf (c :: t) || containsSub t sub

/-- Python `s.replace(old, new, 1)`: replace the leftmost occurrence of
`old` by `new`; with `old = ""` Python inserts `new` at the front, which
this definition also does. -/
def replFirst : List Char → List Char → List Char → List Char
  | [], old, new => if old.isEmpty then new else []
  | c :: t, old, new =>
      if old.isPrefixOf (c :: t) then new ++ (c :: t).drop old.length
      else c :: replFirst t old new

/-- Python `sub in s` on `String`. -/
def containsS (s sub : String) : Bool := containsSub s.data sub.data

/-- Python `s.replace(old, new, 1)` on `String`. -/
def replFirstS (s old new : String) : String :=
  String.mk (replFirst s.data old.data new.data)

/-- Python `s[:n]` on a string. -/
def takeS (n : Nat) (s : String) : String := String.mk (s.data.take n)

/-- Python `x or d` for an optional string `x` (both `None` and `""`
are falsy). Used for `provider = provider or self.default` and
`model = model or conf['model']`. -/
def orDefault : Option String → String → String
  | none, d => d
  | some s, d => if s = "" then d else s

/-- Python truthiness of an optional string: `None` and `""` are falsy.
Used for `if key and category`, `if not api_key`, etc. -/
def truthy : Option String → Option String
  | none => none
  | some s => if s = "" then none else some s

/-- Python `l[-n:]`, including the `n = 0` corner case where `l[-0:]`
is the whole list. -/
def takeLastPy (n : Nat) (l : List α) : List α :=
  if n = 0 then l else l.drop (l.length - n)

/-- The genuine "last `n` elements" of a list. -/
def lastN (n : Nat) (l : List α) : List α := l.drop (l.length - n)

/- ------------------------------------------------------------------ -/
/- Python dicts as association lists                                  -/
/- ------------------------------------------------------------------ -/

/-- Dict lookup `d.get(k)`. -/
def alLookup [DecidableEq κ] (k : κ) : List (κ × β) → Option β
  | [] => none
  | (k1, v) :: t => if k1 = k then some v else alLookup k t

/-- Dict insert/overwrite `d[k] = v`. -/
def alUpdate [DecidableEq κ] (k : κ) (v : β) : List (κ × β) → List (κ × β)
  | [] => [(k, v)]
  | (k1, v1) :: t => if k1 = k then (k, v) :: t else (k1, v1) :: alUpdate k v t

/- ------------------------------------------------------------------ -/
/- MemoryStore (mcp_backend.py lines 57-122)                          -/
/- ------------------------------------------------------------------ -/

/-- One stored memory value: `{"value": v, "timestamp": ts,
"access_count": n}`. -/
structure MemEntry (α : Type) where
  value : α
  timestamp : Nat
  access_count : Nat
deriving DecidableEq

/-- One rolling-context record: `{"type": t, "data": d,
"timestamp": ts}` (the JSON payload is modelled as a string). -/
structure CtxEntry where
  type : String
  data : String
  timestamp : Nat
deriving DecidableEq

/-- The in-memory state of `MemoryStore`: `self.memories` (category →
key → entry), `self.context`, and `self.limit`. -/
structure MemoryStore (α : Type) where
  memories : List (String × List (String × MemEntry α))
  context : List CtxEntry
  limit : Nat
deriving DecidableEq

/-- A fresh/empty store with the configured context limit. -/
def emptyStore (α : Type) (limit : Nat) : MemoryStore α := ⟨[], [], limit⟩

/-- Embeds `MemoryStore.remember`: upsert the entry with `access_count = 0`
and a fresh timestamp (the trailing `self._save()` is modelled by
`rememberD` below). -/
def MemoryStore.remember (st : MemoryStore α) (key : String) (value : α)
    (category : String) (now : Nat) : MemoryStore α :=
  let cat := (alLookup category st.memories).getD []
  { st with memories := alUpdate category (alUpdate key ⟨value, now, 0⟩ cat) st.memories }

/-- What `MemoryStore.recall` returns: a single keyed entry, a whole
category mapping, or the whole store. -/
inductive RecallResult (α : Type) where
  | single : String → MemEntry α → RecallResult α
  | cat : List (String × MemEntry α) → RecallResult α
  | all : List (String × List (String × MemEntry α)) → RecallResult α
deriving DecidableEq

/-- Embeds `MemoryStore.recall(key=None, category=None)`. The keyed branch
runs only when `key` and `category` are both truthy and both present
(`if key and category and category in self.memories and key in
self.memories[category]`); it increments `access_count`. Otherwise a
truthy `category` returns that category's mapping, else the whole
store, with no mutation. -/
def MemoryStore.recall (st : MemoryStore α) (key category : Option String) :
    MemoryStore α × RecallResult α :=
  let keyed : Option (String × String × List (String × MemEntry α) × MemEntry α) :=
    match truthy key, truthy category with
    | some k, some c =>
      match alLookup c st.memories with
      | some cat =>
        match alLookup k cat with
        | some e => some (k, c, cat, e)
        | none => none
      | none => none
    | _, _ => none
  match keyed with
  | some (k, c, cat, e) =>
      let e2 : MemEntry α := ⟨e.value, e.timestamp, e.access_count + 1⟩
      ({ st with memories := alUpdate c (alUpdate k e2 cat) st.memories },
       RecallResult.single k e2)
  | none =>
    match truthy category with
    | some c => (st, RecallResult.cat ((alLookup c st.memories).getD []))
    | none => (st, RecallResult.all st.memories)

/-- Embeds `MemoryStore.add_context`: append, then `self.context =
self.context[-self.limit:]` when over the limit (note the Python
`[-0:]` corner case faithfully kept by `takeLastPy`). -/
def MemoryStore.add_context (st : MemoryStore α) (ty da : String) (now : Nat) :
    MemoryStore α :=
  let ctx := st.context ++ [⟨ty, da, now⟩]
  let ctx2 := if ctx.length > st.limit then takeLastPy st.limit ctx else ctx
  { st with context := ctx2 }

/-- Embeds `MemoryStore.get_context`. -/
def MemoryStore.get_context (st : MemoryStore α) : List CtxEntry := st.context

/-- Fold `add_context` over a list of `(type, data, timestamp)`
insertions. -/
def addAll (st : MemoryStore α) (es : List (String × String × Nat)) : MemoryStore α :=
  es.foldl (fun s e => s.add_context e.1 e.2.1 e.2.2) st

/- ------------------------------------------------------------------ -/
/- MemoryStore persistence (_load / _save, lines 65-94)               -/
/- ------------------------------------------------------------------ -/

/-- The parsed backing JSON document: either the new format
`{"memories": ..., "context": ...}` or the old bare-memories format. -/
inductive RawDoc (α : Type) where
  | newFmt : List (String × List (String × MemEntry α)) → List CtxEntry → RawDoc α
  | oldFmt : List (String × List (String × MemEntry α)) → RawDoc α

/-- Embeds `MemoryStore._load` together with `__init__`: `none` is a missing
file, `Except.error` a read/parse failure (the `except` branch); both
yield an empty store.  A successful parse is normalized per format. -/
def loadStore (α : Type) (raw : Option (Except String (RawDoc α))) (limit : Nat) :
    MemoryStore α :=
  match raw with
  | none => emptyStore α limit
  | some (Except.error _) => emptyStore α limit
  | some (Except.ok (RawDoc.newFmt m c)) => ⟨m, c, limit⟩
  | some (Except.ok (RawDoc.oldFmt m)) => ⟨m, [], limit⟩

/-- A disk: writing the serialized document either succeeds or raises. -/
def Disk (α : Type) : Type := RawDoc α → Except String Unit

/-- What `_save` writes: `{"memories": self.memories, "context":
self.context}`. -/
def serializeStore (st : MemoryStore α) : RawDoc α :=
  RawDoc.newFmt st.memories st.context

/-- Embeds `MemoryStore._save`: the `write_text` call is wrapped in
`try/except`, so a raised I/O error is swallowed (logged); the result
records only whether the write succeeded. -/
def trySave (d : Disk α) (st : MemoryStore α) : Bool :=
  match d (serializeStore st) with
  | Except.ok _ => true
  | Except.error _ => false

/-- Runs `remember` followed by `self._save()`: the in-memory mutation
happens first and is kept whether or not the disk write succeeds. -/
def rememberD (st : MemoryStore α) (d : Disk α) (k : String) (v : α)
    (c : String) (now : Nat) : MemoryStore α × Bool :=
  let st2 := st.remember k v c now
  (st2, trySave d st2)

/-- Runs `add_context` followed by `self._save()`. -/
def add_contextD (st : MemoryStore α) (d : Disk α) (ty da : String) (now : Nat) :
    MemoryStore α × Bool :=
  let st2 := st.add_context ty da now
  (st2, trySave d st2)

/- ------------------------------------------------------------------ -/
/- Paths and FGDMCPServer._sanitize (lines 416-421)                   -/
/- ------------------------------------------------------------------ -/

/-- A client-supplied POSIX path: an absolute flag plus components
(split on `/`, possibly containing `"."` and `".."`). -/
structure PyPath where
  absolute : Bool
  comps : List String
deriving DecidableEq

/-- Lexical resolution of an absolute path's components, as
`Path.resolve` does on POSIX: `"."` vanishes, `".."` pops the previous
component (and is a no-op at the root).  Symlink resolution is not
modelled; this is the purely lexical part. -/
def resolveAux : List String → List String → List String
  | acc, [] => acc.reverse
  | acc, c :: t =>
    if c = "." then resolveAux acc t
    else if c = ".." then resolveAux (acc.drop 1) t
    else resolveAux (c :: acc) t

/-- Embeds `Path.resolve` on the components of an absolute path. -/
def resolveComps (l : List String) : List String := resolveAux [] l

/-- Embeds `pathlib`'s `base / rel`: if `rel` is absolute the base is
discarded. `base` is the already-resolved absolute sandbox root. -/
def joinPy (base : List String) (rel : PyPath) : List String :=
  if rel.absolute then rel.comps else base ++ rel.comps

/-- Characters of `/a/b/...` for a nonempty component list. -/
def charsOfComps (cs : List String) : List Char :=
  (cs.map (fun c => '/' :: c.data)).flatten

/-- Renders `str(p)` for an absolute path given by its components (`/` for the
root). -/
def pathChars (cs : List String) : List Char :=
  if cs = [] then ['/'] else charsOfComps cs

/-- Embeds `FGDMCPServer._sanitize`: `p = (base / rel).resolve()`, then
`str(p).startswith(str(base))` or `ValueError("Path traversal
blocked")`.  The prefix test is on the rendered strings, exactly as in
the source. -/
def sanitize (base : List String) (rel : PyPath) : Except String (List String) :=
  let p := resolveComps (joinPy base rel)
  if (pathChars base).isPrefixOf (pathChars p) then Except.ok p
  else Except.error "Path traversal blocked"

/-- Helper for `Path.with_suffix`: the characters of a file name up to
(excluding) its last dot, where a dot at position 0 alone does not
count as starting a suffix (`.bashrc` has no suffix). -/
def takeUntilLastDot : List Char → List Char
  | [] => []
  | c :: rest =>
    if rest.contains '.' then c :: takeUntilLastDot rest
    else if c = '.' then [] else c :: rest

/-- Computes the `PurePath.stem`-style stem of one file-name component. -/
def stemOf : List Char → List Char
  | [] => []
  | c :: rest =>
    if rest.contains '.' then c :: takeUntilLastDot rest else c :: rest

/-- Computes the `name` of `path.with_suffix('.bak')` applied to one component. -/
def bakName (s : String) : String := String.mk (stemOf s.data) ++ ".bak"

/-- Embeds `path.with_suffix('.bak')` on a path given by components. -/
def withSuffixBak : List String → List String
  | [] => []
  | [x] => [bakName x]
  | x :: xs => x :: withSuffixBak xs

/-- Renders `str(path)` used where the code logs / stores a resolved path. -/
def compsStr (p : List String) : String := String.mk (pathChars p)

/- ------------------------------------------------------------------ -/
/- LLMBackend.query (lines 124-212)                                   -/
/- ------------------------------------------------------------------ -/

/-- One provider's configuration (`config['llm']['providers'][name]`). -/
structure ProviderConf where
  model : String
  base_url : String
deriving DecidableEq

/-- Embeds `config['llm']`: the default provider name and the provider map. -/
structure LLMConf where
  default_provider : String
  providers : List (String × ProviderConf)

/-- The API-key environment (`XAI_API_KEY`, `OPENAI_API_KEY`,
`ANTHROPIC_API_KEY`); `none` models an unset variable. -/
structure Env where
  xaiKey : Option String
  openaiKey : Option String
  anthropicKey : Option String
deriving DecidableEq

/-- An outbound HTTP request as the router builds it: URL, model, the
full prompt sent as the user message, and the bearer/api key (none for
the local ollama provider). -/
structure HttpReq where
  url : String
  model : String
  content : String
  auth : Option String
deriving DecidableEq

/-- The provider's answer: HTTP status, and (for status 200) the
assistant text already extracted from the vendor's response envelope
(`choices[0].message.content` resp. `content[0].text`); for other
statuses the raw response text. -/
structure HttpResp where
  status : Nat
  body : String

/-- Embeds `LLMBackend.query`.  The HTTP layer is an oracle `http`; the list
of requests actually dispatched is returned alongside the response
string so theorems can observe whether the provider was reached.
Network/timeout exceptions (converted to error strings by the code) are
not modelled: the oracle always answers. -/
def LLMBackend.query (cfg : LLMConf) (env : Env) (http : HttpReq → HttpResp)
    (prompt : String) (provider : Option String) (model : Option String)
    (context : String) : String × List HttpReq :=
  let resolved := orDefault provider cfg.default_provider
  match alLookup resolved cfg.providers with
  | none => ("Error: Provider '" ++ resolved ++ "' not configured", [])
  | some conf =>
    let full_prompt := if context = "" then prompt else context ++ "\n\n" ++ prompt
    let mdl := orDefault model conf.model
    if resolved = "grok" then
      match truthy env.xaiKey with
      | none => ("Error: XAI_API_KEY not set", [])
      | some key =>
        let req : HttpReq := ⟨conf.base_url ++ "/chat/completions", mdl, full_prompt, some key⟩
        let r := http req
        (if r.status ≠ 200 then "Grok API Error " ++ toString r.status ++ ": " ++ r.body
         else r.body, [req])
    else if resolved = "openai" then
      match truthy env.openaiKey with
      | none => ("Error: OPENAI_API_KEY not set", [])
      | some key =>
        let req : HttpReq := ⟨conf.base_url ++ "/chat/completions", mdl, full_prompt, some key⟩
        let r := http req
        (if r.status ≠ 200 then "OpenAI API Error " ++ toString r.status ++ ": " ++ r.body
         else r.body, [req])
    else if resolved = "claude" then
      match truthy env.anthropicKey with
      | none => ("Error: ANTHROPIC_API_KEY not set", [])
      | some key =>
        let req : HttpReq := ⟨conf.base_url ++ "/messages", mdl, full_prompt, some key⟩
        let r := http req
        (if r.status ≠ 200 then "Claude API Error " ++ toString r.status ++ ": " ++ r.body
         else r.body, [req])
    else if resolved = "ollama" then
      let req : HttpReq := ⟨conf.base_url ++ "/chat/completions", mdl, full_prompt, none⟩
      let r := http req
      (if r.status ≠ 200 then "Ollama API Error " ++ toString r.status ++ ": " ++ r.body
       else r.body, [req])
    else ("Provider '" ++ resolved ++ "' not supported.", [])

/- ------------------------------------------------------------------ -/
/- Server state, edit pipeline and tool handlers                      -/
/- ------------------------------------------------------------------ -/

/-- The `.fgd_pending_edit.json` payload written by `edit_file` without
confirmation. -/
structure PendingEdit where
  filepath : PyPath
  old_text : String
  new_text : String
  diff : String
  preview : String
  timestamp : Nat
deriving DecidableEq

/-- The `.fgd_approval.json` payload written by the GUI. -/
structure Approval where
  approved : Bool
  filepath : PyPath
  old_text : String
  new_text : String
  timestamp : Nat
deriving DecidableEq

/-- Observable server state: the sandbox root (resolved components),
the sandbox files (resolved path ↦ content), the two singleton
coordination files, the memory store, and an instrumentation log of
every `write_text` call on sandbox files (path, written content) so
that frame properties ("the file is not rewritten") are expressible. -/
structure SrvState where
  base : List String
  files : List (List String × String)
  pendingFile : Option PendingEdit
  approvalFile : Option Approval
  memory : MemoryStore String
  writes : List (List String × String)
deriving DecidableEq

/-- Abbreviation of `_get_mcp_status_context()`'s fixed status blob
(its JSON body is irrelevant to every claim; only that it is a
nonempty constant matters). -/
def statusContext : String := "=== MCP SERVER STATUS ==="

/-- Abbreviation of `json.dumps` on recent context entries. -/
def ctxRepr (es : List CtxEntry) : String :=
  String.intercalate "," (es.map (fun e => e.type ++ ":" ++ e.data))

/-- Context assembly in the `llm_query` handler: status blob plus
`get_context()[-5:]` when nonempty. -/
def buildContext (mem : MemoryStore String) : String :=
  let recent := lastN 5 mem.get_context
  statusContext ++
    (if recent = [] then ""
     else "\n=== RECENT ACTIVITY ===\n" ++ ctxRepr recent ++ "\n=== END RECENT ACTIVITY ===\n")

/-- The `llm_query` branch of `call_tool` (lines 823-857): build the
context, call `self.llm.query(prompt, "grok", context=context)` —
note the hardcoded provider — then `remember` the conversation under
`conversations` and the raw response under `llm`, and return the
response.  The conversation dict is modelled as a serialized string.
Returns (new state, response text, dispatched HTTP requests). -/
def llmQueryTool (st : SrvState) (cfg : LLMConf) (env : Env)
    (http : HttpReq → HttpResp) (prompt : String) (now : Nat) :
    SrvState × String × List HttpReq :=
  let context := buildContext st.memory
  let qr := LLMBackend.query cfg env http prompt (some "grok") none context
  let response := qr.1
  let mem1 := st.memory.remember ("chat_" ++ toString now)
      (prompt ++ " -> " ++ response) "conversations" now
  let mem2 := mem1.remember ("grok_" ++ toString now) response "llm" now
  ({ st with memory := mem2 }, response, qr.2)

/-- The `diff` field `f"- {old_text}\n+ {new_text}"`. -/
def mkDiff (old new : String) : String := "- " ++ old ++ "\n+ " ++ new

/-- The `edit_file` branch of `call_tool` (lines 667-741).  A sanitize
failure is an uncaught exception (`Except.error`); otherwise the
handler returns a result string.  Without `confirm` it stores the
pending edit (first-occurrence preview, truncated to 500 chars);
with `confirm` it backs the file up to `.bak`, writes the
first-occurrence replacement, records context, and removes any pending
edit file — except that for a target already named `*.bak`,
`with_suffix('.bak')` is the identity and `shutil.copy2` raises
`SameFileError`, caught at lines 739-741: the handler then returns an
error string and nothing is written or cleaned up.  Result strings are
abbreviated forms of the JSON/text the handler returns. -/
def editFileTool (st : SrvState) (fp : PyPath) (old new : String)
    (confirm : Bool) (now : Nat) : Except String (SrvState × String) :=
  match sanitize st.base fp with
  | Except.error e => Except.error e
  | Except.ok p =>
    match alLookup p st.files with
    | none => Except.ok (st, "File not found")
    | some content =>
      if containsS content old = false then Except.ok (st, "Old text not found")
      else if confirm = false then
        let preview := replFirstS content old new
        let pending : PendingEdit :=
          ⟨fp, old, new, mkDiff old new, takeS 500 preview, now⟩
        Except.ok ({ st with pendingFile := some pending },
                   "Edit pending approval - check GUI")
      else
        let newContent := replFirstS content old new
        let backup := withSuffixBak p
        if backup = p then Except.ok (st, "Error: SameFileError")
        else
          let files1 := alUpdate backup content st.files
          let files2 := alUpdate p newContent files1
          let mem2 := st.memory.add_context "file_edit" (compsStr p) now
          Except.ok ({ st with
                        files := files2
                        memory := mem2
                        writes := st.writes ++ [(p, newContent)]
                        pendingFile := none },
                     "Approved! File updated")

/-- The `approved` branch of `_approval_monitor_loop` (lines 342-382):
sanitize, read, first-occurrence replace, back up to `.bak`, write,
record context.  Any step failing (path traversal, missing file) is
the caught exception branch, modelled as `Except.error`; in particular
for a target already named `*.bak`, `with_suffix('.bak')` is the
identity and `shutil.copy2(path, backup)` raises `SameFileError`
before anything is written (caught at line 381). -/
def applyApproved (st : SrvState) (a : Approval) (now : Nat) :
    Except String SrvState :=
  match sanitize st.base a.filepath with
  | Except.error e => Except.error e
  | Except.ok p =>
    match alLookup p st.files with
    | none => Except.error "FileNotFoundError"
    | some content =>
      let newContent := replFirstS content a.old_text a.new_text
      let backup := withSuffixBak p
      if backup = p then Except.error "SameFileError"
      else
        let files1 := alUpdate backup content st.files
        let files2 := alUpdate p newContent files1
        let mem2 := st.memory.add_context "file_edit" (compsStr p) now
        Except.ok { st with
                     files := files2
                     memory := mem2
                     writes := st.writes ++ [(p, newContent)] }

/-- One productive wake-up of `_approval_monitor_loop` (lines 335-388):
if an approval file exists, act on it — apply when `approved` (errors
caught and logged), only log when rejected — then unlink the approval
file.  The pending-edit file is never touched here. -/
def monitorStep (st : SrvState) (now : Nat) : SrvState :=
  match st.approvalFile with
  | none => st
  | some a =>
    let st2 :=
      if a.approved then
        match applyApproved st a now with
        | Except.ok s => s
        | Except.error _ => st
      else st
    { st2 with approvalFile := none }

/- ------------------------------------------------------------------ -/
/- Helper lemmas: association lists, substrings, last-n slices        -/
/- ------------------------------------------------------------------ -/

theorem alLookup_update [DecidableEq κ] (k1 k2 : κ) (v : β) (l : List (κ × β)) :
    alLookup k2 (alUpdate k1 v l) = if k1 = k2 then some v else alLookup k2 l := by
  induction l with
  | nil => simp [alLookup, alUpdate]
  | cons hd t ih =>
    obtain ⟨ka, va⟩ := hd
    by_cases h1 : ka = k1
    · subst h1
      simp only [alUpdate, if_pos rfl, alLookup]
      split_ifs <;> simp_all [alLookup]
    · simp only [alUpdate, if_neg h1, alLookup]
      split_ifs <;> simp_all

theorem alLookup_update_self [DecidableEq κ] (k : κ) (v : β) (l : List (κ × β)) :
    alLookup k (alUpdate k v l) = some v := by
  simp [alLookup_update]

theorem containsSub_of_isPrefixOf {s sub : List Char} (h : sub.isPrefixOf s = true) :
    containsSub s sub = true := by
  cases s with
  | nil =>
    cases sub with
    | nil => rfl
    | cons c t => simp [List.isPrefixOf] at h
  | cons c t => simp [containsSub, h]

theorem containsSub_cons {t sub : List Char} (c : Char) (h : containsSub t sub = true) :
    containsSub (c :: t) sub = true := by
  simp [containsSub, h]

theorem containsSub_append (pre sub post : List Char) :
    containsSub (pre ++ (sub ++ post)) sub = true := by
  induction pre with
  | nil =>
    exact containsSub_of_isPrefixOf
      (List.isPrefixOf_iff_prefix.mpr (List.prefix_append sub post))
  | cons c t ih => exact containsSub_cons c ih

theorem replFirst_of_not_contains {s old : List Char} (new : List Char)
    (h : containsSub s old = false) : replFirst s old new = s := by
  induction s with
  | nil =>
    simp only [containsSub] at h
    simp [replFirst, h]
  | cons c t ih =>
    simp only [containsSub, Bool.or_eq_false_iff] at h
    simp [replFirst, h.1, ih h.2]

theorem lastN_of_le {l : List γ} {n : Nat} (h : l.length ≤ n) : lastN n l = l := by
  simp [lastN, Nat.sub_eq_zero_of_le h]

theorem lastN_append_lastN (n : Nat) (a b : List γ) :
    lastN n (lastN n a ++ b) = lastN n (a ++ b) := by
  by_cases h : a.length ≤ n
  · rw [lastN_of_le h]
  · have hn : n ≤ a.length := le_of_not_le h
    unfold lastN
    have hlen : (a.drop (a.length - n)).length = n := by
      rw [List.length_drop, Nat.sub_sub_self hn]
    rw [List.length_append, List.length_append, hlen]
    have h1 : n + b.length - n = b.length := by omega
    have h2 : a.length + b.length - n = (a.length - n) + b.length := by omega
    rw [h1, h2]
    have h3 : (a ++ b).drop ((a.length - n) + b.length)
        = ((a ++ b).drop (a.length - n)).drop b.length := (List.drop_drop _ _ _).symm
    rw [h3, List.drop_append_of_le_length (Nat.sub_le _ _)]

theorem add_context_context {α : Type} (st : MemoryStore α) (ty da : String)
    (now : Nat) (hl : 1 ≤ st.limit) :
    (st.add_context ty da now).context
      = lastN st.limit (st.context ++ [(⟨ty, da, now⟩ : CtxEntry)]) := by
  have hz : st.limit ≠ 0 := by omega
  show (if (st.context ++ [(⟨ty, da, now⟩ : CtxEntry)]).length > st.limit
        then takeLastPy st.limit (st.context ++ [(⟨ty, da, now⟩ : CtxEntry)])
        else st.context ++ [(⟨ty, da, now⟩ : CtxEntry)])
      = lastN st.limit (st.context ++ [(⟨ty, da, now⟩ : CtxEntry)])
  by_cases h : (st.context ++ [(⟨ty, da, now⟩ : CtxEntry)]).length > st.limit
  · rw [if_pos h]
    simp [takeLastPy, hz, lastN]
  · rw [if_neg h]
    exact (lastN_of_le (by omega)).symm

theorem add_context_len {α : Type} (st : MemoryStore α) (ty da : String)
    (now : Nat) (hl : 1 ≤ st.limit) :
    (st.add_context ty da now).context.length ≤ st.limit := by
  rw [add_context_context st ty da now hl]
  simp only [lastN, List.length_drop]
  omega

theorem addAll_context {α : Type} (es : List (String × String × Nat)) :
    ∀ (st : MemoryStore α), 1 ≤ st.limit → st.context.length ≤ st.limit →
    (addAll st es).context
      = lastN st.limit
          (st.context ++ es.map (fun e => (⟨e.1, e.2.1, e.2.2⟩ : CtxEntry))) ∧
    (addAll st es).limit = st.limit := by
  induction es with
  | nil =>
    intro st h1 h2
    exact ⟨by simp [addAll, lastN_of_le h2], rfl⟩
  | cons e t ih =>
    intro st h1 h2
    have hstep : addAll st (e :: t) = addAll (st.add_context e.1 e.2.1 e.2.2) t := rfl
    have hlim2 : (st.add_context e.1 e.2.1 e.2.2).limit = st.limit := rfl
    have hctx2 : (st.add_context e.1 e.2.1 e.2.2).context
        = lastN st.limit (st.context ++ [⟨e.1, e.2.1, e.2.2⟩]) :=
      add_context_context st _ _ _ h1
    have hlen2 : (st.add_context e.1 e.2.1 e.2.2).context.length
        ≤ (st.add_context e.1 e.2.1 e.2.2).limit := by
      rw [hlim2]; exact add_context_len st _ _ _ h1
    obtain ⟨ha, hb⟩ := ih (st.add_context e.1 e.2.1 e.2.2) (by rw [hlim2]; exact h1) hlen2
    constructor
    · rw [hstep, ha, hctx2, hlim2, lastN_append_lastN]
      simp
    · rw [hstep, hb, hlim2]

/- ------------------------------------------------------------------ -/
/- Claim C8: remember / recall access counting                        -/
/- ------------------------------------------------------------------ -/

/-- C8 counterexample: with the empty key `k = ""`, Python's
`if key and category` treats the key as falsy, so `recall("", c)`
takes the bulk-category branch: it returns the whole category mapping,
the stored `access_count` stays `0`, and no single entry with
`access_count = 1` is returned — refuting the claim's "for every
key `k`". -/
theorem C8_counterexample :
    ((emptyStore String 20).remember "" "v" "c" 0).recall (some "") (some "c")
      = (((emptyStore String 20).remember "" "v" "c" 0),
         RecallResult.cat [("", ⟨"v", 0, 0⟩)]) ∧
    (RecallResult.cat [("", (⟨"v", 0, 0⟩ : MemEntry String))]
       ≠ RecallResult.single "" ⟨"v", 0, 1⟩) := by
  exact ⟨rfl, by decide⟩

/-- C8 (amended): for every NONEMPTY key `k` and NONEMPTY category `c`,
`remember(k, v, c)` immediately followed by `recall(k, c)` returns the
entry holding `v` with `access_count = 1`; a second `recall(k, c)`
returns it with `access_count = 2`; and a bulk recall — key omitted
(with or without a category), or category omitted — never mutates the
store, so it increments no entry's `access_count`. -/
theorem C8_keyed_recall_counts {α : Type} (st : MemoryStore α) (k c : String)
    (v : α) (ts : Nat) (hk : k ≠ "") (hc : c ≠ "") :
    ((st.remember k v c ts).recall (some k) (some c)).2
        = RecallResult.single k ⟨v, ts, 1⟩ ∧
    ((((st.remember k v c ts).recall (some k) (some c)).1).recall
        (some k) (some c)).2
        = RecallResult.single k ⟨v, ts, 2⟩ ∧
    (∀ (st2 : MemoryStore α) (oc : Option String), (st2.recall none oc).1 = st2) ∧
    (∀ (st2 : MemoryStore α) (k2 : String), (st2.recall (some k2) none).1 = st2) := by
  refine ⟨?_, ?_, ?_, ?_⟩
  · simp [MemoryStore.remember, MemoryStore.recall, truthy, hk, hc,
      alLookup_update_self]
  · simp [MemoryStore.remember, MemoryStore.recall, truthy, hk, hc,
      alLookup_update_self]
  · intro st2 oc
    cases oc with
    | none => simp [MemoryStore.recall, truthy]
    | some c2 =>
      by_cases h : c2 = "" <;> simp [MemoryStore.recall, truthy, h]
  · intro st2 k2
    by_cases h : k2 = "" <;> simp [MemoryStore.recall, truthy, h]

/-- C8 witness: concrete instantiation of the amended claim at
`k = "k"`, `c = "c"`, `v = "v"`. -/
theorem C8_keyed_recall_counts_witness :
    (("k" : String) ≠ "") ∧ (("c" : String) ≠ "") ∧
    (((emptyStore String 20).remember "k" "v" "c" 7).recall
        (some "k") (some "c")).2 = RecallResult.single "k" ⟨"v", 7, 1⟩ ∧
    (((((emptyStore String 20).remember "k" "v" "c" 7).recall
        (some "k") (some "c")).1).recall (some "k") (some "c")).2
      = RecallResult.single "k" ⟨"v", 7, 2⟩ := by
  have h := C8_keyed_recall_counts (emptyStore String 20) "k" "c" "v" 7
    (by decide) (by decide)
  exact ⟨by decide, by decide, h.1, h.2.1⟩

/- ------------------------------------------------------------------ -/
/- Claim C9: bounded FIFO context window                              -/
/- ------------------------------------------------------------------ -/

/-- C9 counterexample: with a configured `limit = 0`, Python's
truncation `self.context[-self.limit:]` is `self.context[-0:]`, i.e.
the whole list, so after one `add_context` the log holds 1 entry,
violating "at most `limit` entries". -/
theorem C9_counterexample :
    ¬(((emptyStore String 0).add_context "t" "d" 0).context.length
        ≤ (emptyStore String 0).limit) := by decide

/-- C9 (amended): for every configured `limit ≥ 1` (any positive
limit, in particular the default 20): after any `add_context` call the
context log holds at most `limit` entries — hence after any sequence
of calls — and after `limit + N` appends starting from an empty store
the stored context is exactly the last `limit` insertions in insertion
order.  (Only `limit = 0`, where Python's `[-0:]` slice disables
truncation, escapes the claim.) -/
theorem C9_context_window (limit : Nat) (hl : 1 ≤ limit) :
    (∀ (st : MemoryStore String) (ty da : String) (now : Nat),
        st.limit = limit →
        (st.add_context ty da now).context.length ≤ limit) ∧
    (∀ es : List (String × String × Nat), limit ≤ es.length →
        (addAll (emptyStore String limit) es).context
          = (es.map (fun e => (⟨e.1, e.2.1, e.2.2⟩ : CtxEntry))).drop
              (es.length - limit)) := by
  constructor
  · intro st ty da now hlim
    have h1 : 1 ≤ st.limit := by omega
    have h2 := add_context_len st ty da now h1
    omega
  · intro es hes
    have h := (addAll_context es (emptyStore String limit)
      (by simpa [emptyStore] using hl) (by simp [emptyStore])).1
    simpa [emptyStore, lastN, List.length_map] using h

/-- C9 witness: `limit = 2`, three appends; the log is exactly the
last two insertions, in order. -/
theorem C9_context_window_witness :
    ((1 : Nat) ≤ 2) ∧
    (addAll (emptyStore String 2) [("a", "1", 0), ("b", "2", 1), ("c", "3", 2)]).context
      = [⟨"b", "2", 1⟩, ⟨"c", "3", 2⟩] := by
  have h := (C9_context_window 2 (by decide)).2
    [("a", "1", 0), ("b", "2", 1), ("c", "3", 2)] (by decide)
  exact ⟨by decide, by rw [h]; rfl⟩

/- ------------------------------------------------------------------ -/
/- Claim C10: persistence failure semantics                           -/
/- ------------------------------------------------------------------ -/

/-- C10: a missing, corrupt or unreadable backing document loads as the
empty store; `remember`/`add_context` are total (no I/O error reaches
the caller — `_save` swallows the write exception into a logged
boolean), and the in-memory mutation takes effect even when the disk
write raises: on a failing disk the save reports `false` yet the new
entry is present in the returned store. -/
theorem C10_persistence_policy (α : Type) :
    (∀ limit : Nat, loadStore α none limit = emptyStore α limit) ∧
    (∀ (msg : String) (limit : Nat),
        loadStore α (some (Except.error msg)) limit = emptyStore α limit) ∧
    (∀ (st : MemoryStore α) (d : Disk α) (k : String) (v : α) (c : String)
        (ts : Nat), (rememberD st d k v c ts).1 = st.remember k v c ts) ∧
    (∀ (st : MemoryStore α) (d : Disk α) (ty da : String) (ts : Nat),
        (add_contextD st d ty da ts).1 = st.add_context ty da ts) ∧
    (∀ (st : MemoryStore α) (d : Disk α) (k : String) (v : α) (c : String)
        (ts : Nat) (msg : String),
        d (serializeStore (st.remember k v c ts)) = Except.error msg →
        (rememberD st d k v c ts).2 = false ∧
        alLookup k ((alLookup c (rememberD st d k v c ts).1.memories).getD [])
          = some ⟨v, ts, 0⟩) := by
  refine ⟨fun _ => rfl, fun _ _ => rfl, fun _ _ _ _ _ _ => rfl,
    fun _ _ _ _ _ => rfl, ?_⟩
  intro st d k v c ts msg h
  constructor
  · simp [rememberD, trySave, h]
  · simp [rememberD, MemoryStore.remember, alLookup_update_self]

/-- C10 witness: a disk whose write always raises; `remember` still
returns, reports the failed save, and the entry is in memory. -/
theorem C10_persistence_policy_witness :
    ((fun _ => Except.error "disk full" : Disk String)
        (serializeStore ((emptyStore String 20).remember "k" "v" "general" 0))
      = Except.error "disk full") ∧
    (rememberD (emptyStore String 20) (fun _ => Except.error "disk full")
        "k" "v" "general" 0).2 = false ∧
    alLookup "k" ((alLookup "general"
        (rememberD (emptyStore String 20) (fun _ => Except.error "disk full")
          "k" "v" "general" 0).1.memories).getD [])
      = some ⟨"v", 0, 0⟩ := by
  have h := (C10_persistence_policy String).2.2.2.2 (emptyStore String 20)
    (fun _ => Except.error "disk full") "k" "v" "general" 0 "disk full" rfl
  exact ⟨rfl, h.1, h.2⟩

/- ------------------------------------------------------------------ -/
/- Claim C2: path sanitization                                        -/
/- ------------------------------------------------------------------ -/

theorem charsOfComps_append (a b : List String) :
    charsOfComps (a ++ b) = charsOfComps a ++ charsOfComps b := by
  simp [charsOfComps]

/-- Component-wise containment implies the rendered-string prefix that
`_sanitize` actually tests. -/
theorem pathChars_mono (a b : List String) (h : List.isPrefixOf a b = true) :
    (pathChars a).isPrefixOf (pathChars b) = true := by
  rw [List.isPrefixOf_iff_prefix] at h ⊢
  obtain ⟨t, rfl⟩ := h
  cases a with
  | nil =>
    cases t with
    | nil => simp [pathChars]
    | cons c cs => simp [pathChars, charsOfComps]
  | cons a0 as =>
    have h1 : (a0 :: as : List String) ≠ [] := by simp
    have h2 : ((a0 :: as : List String) ++ t) ≠ [] := by simp
    simp only [pathChars, if_neg h1, if_neg h2, charsOfComps_append]
    exact List.prefix_append _ _

/-- C2 counterexample, with sandbox root `/tmp/sandbox`:
(1) the relative path `sub/../f` contains a parent-directory segment
yet `_sanitize` succeeds (it resolves back inside); (2) the absolute
input path `/tmp/sandbox/g` is not rejected; (3) the relative path
`../sandbox2/f` escapes the sandbox — its resolution `/tmp/sandbox2/f`
is not inside the root, as conjunct (4) states — yet `_sanitize`
accepts it because the test is a string-prefix test
(`"/tmp/sandbox2/f".startswith("/tmp/sandbox")`). -/
theorem C2_counterexample :
    sanitize ["tmp", "sandbox"] ⟨false, ["sub", "..", "f"]⟩
      = Except.ok ["tmp", "sandbox", "f"] ∧
    sanitize ["tmp", "sandbox"] ⟨true, ["tmp", "sandbox", "g"]⟩
      = Except.ok ["tmp", "sandbox", "g"] ∧
    sanitize ["tmp", "sandbox"] ⟨false, ["..", "sandbox2", "f"]⟩
      = Except.ok ["tmp", "sandbox2", "f"] ∧
    List.isPrefixOf ["tmp", "sandbox"] ["tmp", "sandbox2", "f"] = false := by
  exact ⟨rfl, rfl, rfl, by decide⟩

/-- C2 (amended): `_sanitize` neither rejects parent-directory
segments textually nor rejects absolute inputs; it joins the input to
the root, resolves, and accepts exactly when the rendered resolved
string starts with the rendered root.  Consequently (a) every returned
path is the full resolution of the join and its string carries the
root's string as a prefix (which does not imply sandbox containment,
cf. the counterexample), and (b) every path whose resolution is
genuinely inside the root (component-wise) is accepted and returned. -/
theorem C2_sanitize_string_prefix_only :
    ∀ (base : List String) (rel : PyPath),
    (∀ p, sanitize base rel = Except.ok p →
        p = resolveComps (joinPy base rel) ∧
        (pathChars base).isPrefixOf (pathChars p) = true) ∧
    (List.isPrefixOf base (resolveComps (joinPy base rel)) = true →
        sanitize base rel = Except.ok (resolveComps (joinPy base rel))) := by
  intro base rel
  constructor
  · intro p h
    simp only [sanitize] at h
    split at h
    · rename_i hc
      injection h with h2
      exact ⟨h2.symm, h2 ▸ hc⟩
    · simp at h
  · intro h
    have hm := pathChars_mono base (resolveComps (joinPy base rel)) h
    simp [sanitize, hm]

/-- C2 witness: a clean relative path inside the sandbox is accepted
and returned resolved. -/
theorem C2_sanitize_string_prefix_only_witness :
    sanitize ["home", "proj"] ⟨false, ["sub", "file.txt"]⟩
      = Except.ok (resolveComps (joinPy ["home", "proj"] ⟨false, ["sub", "file.txt"]⟩)) :=
  (C2_sanitize_string_prefix_only ["home", "proj"] ⟨false, ["sub", "file.txt"]⟩).2
    (by decide)

/- ------------------------------------------------------------------ -/
/- Claim C6: provider resolution and unconfigured providers           -/
/- ------------------------------------------------------------------ -/

/-- C6: `provider = provider or self.default` resolves an explicit
(nonempty) provider argument to itself and a missing one to the
configured default; and `query` against a provider name absent from
the configuration returns the error string naming that provider —
without dispatching any HTTP request and without raising (`query` is
total; the error is its return value). -/
theorem C6_provider_resolution :
    (∀ (p d : String), p ≠ "" → orDefault (some p) d = p) ∧
    (∀ d : String, orDefault none d = d) ∧
    (∀ (cfg : LLMConf) (env : Env) (http : HttpReq → HttpResp)
        (prompt : String) (pv model : Option String) (ctx : String),
        alLookup (orDefault pv cfg.default_provider) cfg.providers = none →
        LLMBackend.query cfg env http prompt pv model ctx
          = ("Error: Provider '" ++ orDefault pv cfg.default_provider
              ++ "' not configured", []) ∧
        containsS ("Error: Provider '" ++ orDefault pv cfg.default_provider
              ++ "' not configured") (orDefault pv cfg.default_provider)
          = true) := by
  refine ⟨?_, ?_, ?_⟩
  · intro p d hp
    simp [orDefault, hp]
  · intro d
    rfl
  · intro cfg env http prompt pv model ctx h
    constructor
    · simp [LLMBackend.query, h]
    · show containsSub
        ("Error: Provider '" ++ orDefault pv cfg.default_provider
          ++ "' not configured").data (orDefault pv cfg.default_provider).data
        = true
      have hdata : ("Error: Provider '" ++ orDefault pv cfg.default_provider
            ++ "' not configured").data
          = "Error: Provider '".data
              ++ ((orDefault pv cfg.default_provider).data
                  ++ "' not configured".data) := by
        simp [String.data_append]
      rw [hdata]
      exact containsSub_append _ _ _

/-- C6 witness: provider `mistral` is not configured; the query returns
the error string containing `mistral` and dispatches nothing. -/
theorem C6_provider_resolution_witness :
    (alLookup (orDefault (some "mistral") "grok")
        ([] : List (String × ProviderConf)) = none) ∧
    LLMBackend.query ⟨"grok", []⟩ ⟨none, none, none⟩ (fun _ => ⟨200, "ok"⟩)
        "hi" (some "mistral") none ""
      = ("Error: Provider '" ++ orDefault (some "mistral") "grok"
          ++ "' not configured", []) ∧
    containsS ("Error: Provider '" ++ orDefault (some "mistral") "grok"
          ++ "' not configured") (orDefault (some "mistral") "grok") = true := by
  have h := C6_provider_resolution.2.2 ⟨"grok", []⟩ ⟨none, none, none⟩
    (fun _ => ⟨200, "ok"⟩) "hi" (some "mistral") none "" rfl
  exact ⟨rfl, h.1, h.2⟩

/- ------------------------------------------------------------------ -/
/- Claim C1: llm_query is not rate limited                            -/
/- ------------------------------------------------------------------ -/

/-- C1 counterexample: no `RateLimiter` exists anywhere in the code;
with grok configured and its key set, three consecutive `llm_query`
calls at times 0, 1 and 2 (well within 60 seconds of the first) each
dispatch exactly one HTTP request to the provider, and the third call
returns the provider's response text — not a rate-limit string. -/
theorem C1_counterexample :
    (let cfg : LLMConf := ⟨"grok", [("grok", ⟨"grok-beta", "https://api.x.ai/v1"⟩)]⟩
     let env : Env := ⟨some "k", none, none⟩
     let http : HttpReq → HttpResp := fun _ => ⟨200, "pong"⟩
     let s0 : SrvState := ⟨["tmp", "sandbox"], [], none, none, emptyStore String 20, []⟩
     let r1 := llmQueryTool s0 cfg env http "q1" 0
     let r2 := llmQueryTool r1.1 cfg env http "q2" 1
     let r3 := llmQueryTool r2.1 cfg env http "q3" 2
     r1.2.2.length = 1 ∧ r2.2.2.length = 1 ∧ r3.2.1 = "pong" ∧
       r3.2.2 = [⟨"https://api.x.ai/v1/chat/completions", "grok-beta",
                  statusContext ++ "\n\n" ++ "q3", some "k"⟩]) := by
  exact ⟨rfl, rfl, rfl, rfl⟩

/-- C1 (amended): `llm_query` performs no rate limiting at all — the
code contains no `RateLimiter`.  Whenever the hardcoded provider
`"grok"` is configured and `XAI_API_KEY` is set, every `llm_query`
call, at any time and regardless of how many calls preceded it in any
window, dispatches exactly one HTTP request to the provider and
returns the provider-derived response text (the provider's body on
status 200, its error text otherwise) — never a rate-limit message. -/
theorem C1_no_rate_limit (st : SrvState) (cfg : LLMConf) (env : Env)
    (http : HttpReq → HttpResp) (prompt : String) (now : Nat)
    (conf : ProviderConf) (key : String) (req : HttpReq)
    (hconf : alLookup "grok" cfg.providers = some conf)
    (hkey : truthy env.xaiKey = some key)
    (hreq : req = ⟨conf.base_url ++ "/chat/completions", conf.model,
        (if buildContext st.memory = "" then prompt
         else buildContext st.memory ++ "\n\n" ++ prompt), some key⟩) :
    (llmQueryTool st cfg env http prompt now).2.2 = [req] ∧
    (llmQueryTool st cfg env http prompt now).2.1
      = (if (http req).status ≠ 200
         then "Grok API Error " ++ toString (http req).status ++ ": "
                ++ (http req).body
         else (http req).body) := by
  subst hreq
  have hres : orDefault (some "grok") cfg.default_provider = "grok" := rfl
  have hmod : orDefault none conf.model = conf.model := rfl
  constructor <;>
    simp [llmQueryTool, LLMBackend.query, hres, hmod, hconf, hkey]

/-- C1 witness: concrete configuration; one call, one dispatched
request. -/
theorem C1_no_rate_limit_witness :
    (alLookup "grok" [("grok", (⟨"grok-beta", "https://api.x.ai/v1"⟩ : ProviderConf))]
      = some ⟨"grok-beta", "https://api.x.ai/v1"⟩) ∧
    (truthy (some "k") = some "k") ∧
    (llmQueryTool ⟨["tmp", "sandbox"], [], none, none, emptyStore String 20, []⟩
        ⟨"grok", [("grok", ⟨"grok-beta", "https://api.x.ai/v1"⟩)]⟩
        ⟨some "k", none, none⟩ (fun _ => ⟨200, "pong"⟩) "hello" 5).2.2
      = [⟨"https://api.x.ai/v1" ++ "/chat/completions", "grok-beta",
          (if buildContext (emptyStore String 20) = "" then "hello"
           else buildContext (emptyStore String 20) ++ "\n\n" ++ "hello"),
          some "k"⟩] := by
  have h := C1_no_rate_limit
    ⟨["tmp", "sandbox"], [], none, none, emptyStore String 20, []⟩
    ⟨"grok", [("grok", ⟨"grok-beta", "https://api.x.ai/v1"⟩)]⟩
    ⟨some "k", none, none⟩ (fun _ => ⟨200, "pong"⟩) "hello" 5
    ⟨"grok-beta", "https://api.x.ai/v1"⟩ "k" _ rfl rfl rfl
  exact ⟨rfl, rfl, h.1⟩

/- ------------------------------------------------------------------ -/
/- Claims C3-C5, C7: the approval pipeline                            -/
/- ------------------------------------------------------------------ -/

/-- A successful `applyApproved` never touches the pending-edit file. -/
theorem applyApproved_pendingFile {st : SrvState} {a : Approval} {now : Nat}
    {s : SrvState} (h : applyApproved st a now = Except.ok s) :
    s.pendingFile = st.pendingFile := by
  cases hs : sanitize st.base a.filepath with
  | error e => simp [applyApproved, hs] at h
  | ok p =>
    cases hl : alLookup p st.files with
    | none => simp [applyApproved, hs, hl] at h
    | some content =>
      by_cases hb : withSuffixBak p = p
      · simp [applyApproved, hs, hl, hb] at h
      · simp [applyApproved, hs, hl, hb] at h
        subst h
        rfl

/-- Characterization of the approved-apply step when sanitize succeeds,
the target file exists and the target is not itself named `*.bak`
(otherwise `copy2` raises `SameFileError`): `.bak` gets the pre-edit
content, the file gets the first-occurrence replacement, the write is
logged, a context entry is recorded. -/
theorem applyApproved_ok (st : SrvState) (a : Approval) (now : Nat)
    {p : List String} {content : String}
    (hp : sanitize st.base a.filepath = Except.ok p)
    (hc : alLookup p st.files = some content)
    (hbak : withSuffixBak p ≠ p) :
    applyApproved st a now = Except.ok { st with
      files := alUpdate p (replFirstS content a.old_text a.new_text)
                 (alUpdate (withSuffixBak p) content st.files)
      memory := st.memory.add_context "file_edit" (compsStr p) now
      writes := st.writes ++ [(p, replFirstS content a.old_text a.new_text)] } := by
  simp [applyApproved, hp, hc, hbak]

/-- C3 counterexample: a rejected approval (`approved = false`) is
consumed while a pending edit exists; afterwards the approval file is
gone but the pending-edit file is still present (and the target file
is untouched) — the loop does not delete both. -/
theorem C3_counterexample :
    (monitorStep ⟨["tmp", "sandbox"], [(["tmp", "sandbox", "f.txt"], "a c")],
        some ⟨⟨false, ["f.txt"]⟩, "a", "b", "- a\n+ b", "b c", 0⟩,
        some ⟨false, ⟨false, ["f.txt"]⟩, "a", "b", 1⟩,
        emptyStore String 20, []⟩ 2).approvalFile = none ∧
    (monitorStep ⟨["tmp", "sandbox"], [(["tmp", "sandbox", "f.txt"], "a c")],
        some ⟨⟨false, ["f.txt"]⟩, "a", "b", "- a\n+ b", "b c", 0⟩,
        some ⟨false, ⟨false, ["f.txt"]⟩, "a", "b", 1⟩,
        emptyStore String 20, []⟩ 2).pendingFile
      = some ⟨⟨false, ["f.txt"]⟩, "a", "b", "- a\n+ b", "b c", 0⟩ ∧
    (monitorStep ⟨["tmp", "sandbox"], [(["tmp", "sandbox", "f.txt"], "a c")],
        some ⟨⟨false, ["f.txt"]⟩, "a", "b", "- a\n+ b", "b c", 0⟩,
        some ⟨false, ⟨false, ["f.txt"]⟩, "a", "b", 1⟩,
        emptyStore String 20, []⟩ 2).pendingFile ≠ none := by
  exact ⟨rfl, rfl, by decide⟩

/-- C3 (amended): for every approval decision the monitor loop
consumes — approved or rejected — it deletes the approval-decision
file, but it never deletes the pending-edit file: the pending-edit
singleton is left exactly as it was (its deletion is the GUI's doing,
not the loop's). -/
theorem C3_monitor_deletes_only_approval (st : SrvState) (a : Approval)
    (now : Nat) (h : st.approvalFile = some a) :
    (monitorStep st now).approvalFile = none ∧
    (monitorStep st now).pendingFile = st.pendingFile := by
  unfold monitorStep
  rw [h]
  cases happ : a.approved
  · simp [happ]
  · cases hap : applyApproved st a now with
    | ok s => simp [happ, hap, applyApproved_pendingFile hap]
    | error e => simp [happ, hap]

/-- C3 witness: rejected decision with a pending edit present. -/
theorem C3_monitor_deletes_only_approval_witness :
    (monitorStep ⟨["s"], [], some ⟨⟨false, ["g"]⟩, "x", "y", "- x\n+ y", "y", 3⟩,
        some ⟨false, ⟨false, ["g"]⟩, "x", "y", 4⟩, emptyStore String 20, []⟩ 5).approvalFile
      = none ∧
    (monitorStep ⟨["s"], [], some ⟨⟨false, ["g"]⟩, "x", "y", "- x\n+ y", "y", 3⟩,
        some ⟨false, ⟨false, ["g"]⟩, "x", "y", 4⟩, emptyStore String 20, []⟩ 5).pendingFile
      = (⟨["s"], [], some ⟨⟨false, ["g"]⟩, "x", "y", "- x\n+ y", "y", 3⟩,
          some ⟨false, ⟨false, ["g"]⟩, "x", "y", 4⟩, emptyStore String 20, []⟩ : SrvState).pendingFile :=
  C3_monitor_deletes_only_approval
    ⟨["s"], [], some ⟨⟨false, ["g"]⟩, "x", "y", "- x\n+ y", "y", 3⟩,
      some ⟨false, ⟨false, ["g"]⟩, "x", "y", 4⟩, emptyStore String 20, []⟩
    ⟨false, ⟨false, ["g"]⟩, "x", "y", 4⟩ 5 rfl

/-- C4 counterexample: approved edit whose `old_text` (`"xyz"`) is
absent from the file content (`"hello"`): the content is indeed left
equal, but a `.bak` backup IS written and the file IS rewritten (the
write log records a write of the unchanged content) — contradicting
"no .bak backup is written, the file content is not rewritten". -/
theorem C4_counterexample :
    containsS "hello" "xyz" = false ∧
    alLookup ["tmp", "sandbox", "f.bak"]
      (monitorStep ⟨["tmp", "sandbox"], [(["tmp", "sandbox", "f.txt"], "hello")], none,
        some ⟨true, ⟨false, ["f.txt"]⟩, "xyz", "w", 1⟩, emptyStore String 20, []⟩ 2).files
      = some "hello" ∧
    (monitorStep ⟨["tmp", "sandbox"], [(["tmp", "sandbox", "f.txt"], "hello")], none,
        some ⟨true, ⟨false, ["f.txt"]⟩, "xyz", "w", 1⟩, emptyStore String 20, []⟩ 2).writes
      = [(["tmp", "sandbox", "f.txt"], "hello")] := by
  exact ⟨by decide, rfl, rfl⟩

/-- C4 (amended): the apply step performs NO re-validation that
`old_text` is still present.  When it is absent, the file's content is
unchanged (the first-occurrence replace is the identity) and the poll
loop completes the step without crashing (it proceeds to delete the
approval file) — but, contrary to the claim, the step still writes a
`.bak` backup of the content and rewrites the file with identical
bytes (observable in the write log). -/
theorem C4_apply_without_revalidation (st : SrvState) (a : Approval)
    (now : Nat) (p : List String) (content : String)
    (ha : st.approvalFile = some a) (happ : a.approved = true)
    (hp : sanitize st.base a.filepath = Except.ok p)
    (hc : alLookup p st.files = some content)
    (hmiss : containsS content a.old_text = false)
    (hbak : withSuffixBak p ≠ p) :
    alLookup p (monitorStep st now).files = some content ∧
    alLookup (withSuffixBak p) (monitorStep st now).files = some content ∧
    (monitorStep st now).writes = st.writes ++ [(p, content)] ∧
    (monitorStep st now).approvalFile = none := by
  have hrepl : replFirstS content a.old_text a.new_text = content := by
    unfold replFirstS
    rw [replFirst_of_not_contains _ hmiss]
  have happly := applyApproved_ok st a now hp hc hbak
  rw [hrepl] at happly
  have hpb : ¬(p = withSuffixBak p) := fun hh => hbak hh.symm
  refine ⟨?_, ?_, ?_, ?_⟩ <;>
    simp [monitorStep, ha, happ, happly, alLookup_update, hpb]

/-- C4 witness: the concrete scenario of the counterexample, obtained
from the general theorem. -/
theorem C4_apply_without_revalidation_witness :
    alLookup ["tmp", "sandbox", "f.txt"]
      (monitorStep ⟨["tmp", "sandbox"], [(["tmp", "sandbox", "f.txt"], "hello")], none,
        some ⟨true, ⟨false, ["f.txt"]⟩, "xyz", "w", 1⟩, emptyStore String 20, []⟩ 2).files
      = some "hello" ∧
    alLookup (withSuffixBak ["tmp", "sandbox", "f.txt"])
      (monitorStep ⟨["tmp", "sandbox"], [(["tmp", "sandbox", "f.txt"], "hello")], none,
        some ⟨true, ⟨false, ["f.txt"]⟩, "xyz", "w", 1⟩, emptyStore String 20, []⟩ 2).files
      = some "hello" := by
  have h := C4_apply_without_revalidation
    ⟨["tmp", "sandbox"], [(["tmp", "sandbox", "f.txt"], "hello")], none,
      some ⟨true, ⟨false, ["f.txt"]⟩, "xyz", "w", 1⟩, emptyStore String 20, []⟩
    ⟨true, ⟨false, ["f.txt"]⟩, "xyz", "w", 1⟩ 2 ["tmp", "sandbox", "f.txt"]
    "hello" rfl rfl rfl rfl (by decide) (by decide)
  exact ⟨h.1, h.2.1⟩

/-- C5: whenever the monitor loop sees an `approved = true` decision
whose target resolves, exists, and is not itself named `*.bak` (there
`copy2` raises `SameFileError` and nothing is applied), it applies the
edit using the `filepath`/`old_text`/`new_text` taken from the
approval file itself; the pending-edit record is never read — with
`pendingFile = none` (no pending edit ever proposed) the target file
is still modified to the first-occurrence replacement, and the outcome
on the files is identical whatever the pending-edit slot holds.  The
APPLIED transition is thus reachable without PROPOSED. -/
theorem C5_approval_alone_applies (st : SrvState) (a : Approval) (now : Nat)
    (p : List String) (content : String)
    (ha : st.approvalFile = some a) (happ : a.approved = true)
    (hpend : st.pendingFile = none)
    (hp : sanitize st.base a.filepath = Except.ok p)
    (hc : alLookup p st.files = some content)
    (hbak : withSuffixBak p ≠ p) :
    alLookup p (monitorStep st now).files
      = some (replFirstS content a.old_text a.new_text) ∧
    (monitorStep st now).pendingFile = none ∧
    (∀ pe : Option PendingEdit,
        (monitorStep { st with pendingFile := pe } now).files
          = (monitorStep st now).files) := by
  have happly := applyApproved_ok st a now hp hc hbak
  refine ⟨?_, ?_, ?_⟩
  · simp [monitorStep, ha, happ, happly, alLookup_update_self]
  · simp [monitorStep, ha, happ, happly, hpend]
  · intro pe
    have happly2 := applyApproved_ok { st with pendingFile := pe } a now hp hc hbak
    simp only [ha] at happly2
    simp [monitorStep, ha, happ, happly, happly2]

/-- C5 witness: an approval with no pending edit modifies the file. -/
theorem C5_approval_alone_applies_witness :
    alLookup ["tmp", "sandbox", "f.txt"]
      (monitorStep ⟨["tmp", "sandbox"], [(["tmp", "sandbox", "f.txt"], "foo bar foo")],
        none, some ⟨true, ⟨false, ["f.txt"]⟩, "foo", "baz", 1⟩,
        emptyStore String 20, []⟩ 2).files
      = some (replFirstS "foo bar foo" "foo" "baz") ∧
    (monitorStep ⟨["tmp", "sandbox"], [(["tmp", "sandbox", "f.txt"], "foo bar foo")],
        none, some ⟨true, ⟨false, ["f.txt"]⟩, "foo", "baz", 1⟩,
        emptyStore String 20, []⟩ 2).pendingFile = none := by
  have h := C5_approval_alone_applies
    ⟨["tmp", "sandbox"], [(["tmp", "sandbox", "f.txt"], "foo bar foo")],
      none, some ⟨true, ⟨false, ["f.txt"]⟩, "foo", "baz", 1⟩,
      emptyStore String 20, []⟩
    ⟨true, ⟨false, ["f.txt"]⟩, "foo", "baz", 1⟩ 2 ["tmp", "sandbox", "f.txt"]
    "foo bar foo" rfl rfl rfl rfl rfl (by decide)
  exact ⟨h.1, h.2.1⟩

/-- C7: every edit application path uses `content.replace(old_text,
new_text, 1)` — the first occurrence only: (1) the unconfirmed
proposal stores a preview that is the (truncated) first-occurrence
replacement; (2) the confirmed immediate apply writes the
first-occurrence replacement; (3) the approval-time apply writes the
first-occurrence replacement — (2) and (3) for targets not themselves
named `*.bak`, where `copy2` raises `SameFileError` and nothing is
written; and (4) concretely, replacing `"foo"` with `"baz"` in
`"foo bar foo"` yields `"baz bar foo"`, leaving the second occurrence
untouched. -/
theorem C7_first_occurrence_everywhere (st : SrvState) (fp : PyPath)
    (old new : String) (now : Nat) (p : List String) (content : String)
    (hp : sanitize st.base fp = Except.ok p)
    (hc : alLookup p st.files = some content)
    (hold : containsS content old = true)
    (hbak : withSuffixBak p ≠ p) :
    editFileTool st fp old new false now
      = Except.ok ({ st with pendingFile := some ⟨fp, old, new, mkDiff old new,
          takeS 500 (replFirstS content old new), now⟩ },
        "Edit pending approval - check GUI") ∧
    editFileTool st fp old new true now
      = Except.ok ({ st with
          files := alUpdate p (replFirstS content old new)
                     (alUpdate (withSuffixBak p) content st.files)
          memory := st.memory.add_context "file_edit" (compsStr p) now
          writes := st.writes ++ [(p, replFirstS content old new)]
          pendingFile := none },
        "Approved! File updated") ∧
    (∀ (a : Approval) (st2 : SrvState),
        st2.approvalFile = some a → a.approved = true →
        sanitize st2.base a.filepath = Except.ok p →
        alLookup p st2.files = some content →
        alLookup p (monitorStep st2 now).files
          = some (replFirstS content a.old_text a.new_text)) ∧
    replFirstS "foo bar foo" "foo" "baz" = "baz bar foo" := by
  refine ⟨?_, ?_, ?_, by decide⟩
  · simp [editFileTool, hp, hc, hold]
  · simp [editFileTool, hp, hc, hold, hbak]
  · intro a st2 ha2 happ2 hp2 hc2
    have happly := applyApproved_ok st2 a now hp2 hc2 hbak
    simp [monitorStep, ha2, happ2, happly, alLookup_update_self]

/-- C7 witness: proposing an edit on `"foo bar foo"` stores the
first-occurrence-only preview `"baz bar foo"`. -/
theorem C7_first_occurrence_everywhere_witness :
    editFileTool ⟨["s"], [(["s", "f"], "foo bar foo")], none, none,
        emptyStore String 20, []⟩ ⟨false, ["f"]⟩ "foo" "baz" false 0
      = Except.ok ({ (⟨["s"], [(["s", "f"], "foo bar foo")], none, none,
            emptyStore String 20, []⟩ : SrvState) with pendingFile := some ⟨⟨false, ["f"]⟩,
          "foo", "baz", mkDiff "foo" "baz",
          takeS 500 (replFirstS "foo bar foo" "foo" "baz"), 0⟩ },
        "Edit pending approval - check GUI") ∧
    replFirstS "foo bar foo" "foo" "baz" = "baz bar foo" := by
  have h := C7_first_occurrence_everywhere
    ⟨["s"], [(["s", "f"], "foo bar foo")], none, none, emptyStore String 20, []⟩
    ⟨false, ["f"]⟩ "foo" "baz" 0 ["s", "f"] "foo bar foo" rfl rfl (by decide)
    (by decide)
  exact ⟨h.1, h.2.2.2⟩
